import Mathlib

/-!
Shallow embedding of the tgo repository's visitor-session core
(`app/utils/encoding.py`, `app/tasks/auto_fallback_to_ai.py`,
`app/services/session_service.py` of `tgo-api`), together with theorems
settling the specification claims about it.

Conventions: Python `bytes` are `List Nat` with every entry < 256;
Python `int` is `Nat` where the source only handles non-negative values
(and `Int` where sign matters); Python `datetime` values are abstract
`Nat` instants; fallible Python code (raising `ValueError` etc.) returns
`Option`/`Except`.
-/

set_option linter.unusedVariables false

namespace TGO

/-! Python integer and byte primitives used by `app/utils/encoding.py`. -/

/-- Python `int.bit_length()`: number of bits needed to represent `n`;
`(0).bit_length() == 0`. -/
def pyBitLength (n : Nat) : Nat :=
  if n = 0 then 0 else pyBitLength (n / 2) + 1
termination_by n
decreasing_by exact Nat.div_lt_self (Nat.pos_of_ne_zero (by assumption)) (by norm_num)

/-- Python `int.from_bytes(bs, byteorder="big", signed=False)`. -/
def intFromBytesBE (bs : List Nat) : Nat :=
  bs.foldl (fun n b => n * 256 + b) 0

/-- Python `n.to_bytes(len, byteorder="big", signed=False)`, for values that
fit in `len` bytes (the source always computes a sufficient `len`). -/
def intToBytesBE : Nat → Nat → List Nat
  | 0, _ => []
  | len + 1, n => intToBytesBE len (n / 256) ++ [n % 256]

/-! UTF-8, modelling Python `str.encode("utf-8")` and `bytes.decode("utf-8")`.
A Lean `Char` is exactly a Unicode scalar value, matching the code points a
Python `str` can hold apart from lone surrogates, which `str.encode` rejects
anyway. -/

/-- UTF-8 encoding of one character. -/
def utf8EncodeChar (c : Char) : List Nat :=
  let v := c.toNat
  if v < 128 then [v]
  else if v < 2048 then [192 + v / 64, 128 + v % 64]
  else if v < 65536 then [224 + v / 4096, 128 + v / 64 % 64, 128 + v % 64]
  else [240 + v / 262144, 128 + v / 4096 % 64, 128 + v / 64 % 64, 128 + v % 64]

/-- UTF-8 encoding of a character sequence (Python `s.encode("utf-8")`). -/
def utf8Encode (cs : List Char) : List Nat :=
  cs.flatMap utf8EncodeChar

/-- Strict UTF-8 decoding of one code point from leading byte `b` and the
remaining bytes, rejecting truncated sequences, stray continuation bytes,
overlong forms, surrogates and out-of-range values, exactly as Python
`bytes.decode("utf-8")` does. Returns the decoded character and the rest. -/
def utf8DecodeChar (b : Nat) (rest : List Nat) : Option (Char × List Nat) :=
  if b < 128 then some (Char.ofNat b, rest)
  else if b < 192 then none
  else if b < 224 then
    match rest with
    | c1 :: rest1 =>
      if 128 ≤ c1 ∧ c1 < 192 then
        let v := (b - 192) * 64 + (c1 - 128)
        if 128 ≤ v then some (Char.ofNat v, rest1) else none
      else none
    | [] => none
  else if b < 240 then
    match rest with
    | c1 :: c2 :: rest2 =>
      if (128 ≤ c1 ∧ c1 < 192) ∧ (128 ≤ c2 ∧ c2 < 192) then
        let v := (b - 224) * 4096 + (c1 - 128) * 64 + (c2 - 128)
        if 2048 ≤ v ∧ (v < 55296 ∨ 57344 ≤ v) then some (Char.ofNat v, rest2)
        else none
      else none
    | _ => none
  else if b < 248 then
    match rest with
    | c1 :: c2 :: c3 :: rest3 =>
      if (128 ≤ c1 ∧ c1 < 192) ∧ (128 ≤ c2 ∧ c2 < 192) ∧ (128 ≤ c3 ∧ c3 < 192) then
        let v := (b - 240) * 262144 + (c1 - 128) * 4096 + (c2 - 128) * 64 + (c3 - 128)
        if 65536 ≤ v ∧ v < 1114112 then some (Char.ofNat v, rest3) else none
      else none
    | _ => none
  else none

/-- Decoding driver for `utf8Decode`, structurally recursive on a fuel
argument. Every successful `utf8DecodeChar` step consumes at least the
leading byte, so fuel equal to the byte count (as supplied by `utf8Decode`)
is never exhausted. -/
def utf8DecodeAux : Nat → List Nat → Option (List Char)
  | _, [] => some []
  | 0, _ :: _ => none
  | fuel + 1, b :: rest =>
    match utf8DecodeChar b rest with
    | some (c, rest1) => (utf8DecodeAux fuel rest1).map (fun cs => c :: cs)
    | none => none

/-- Full UTF-8 decoding (Python `bytes.decode("utf-8")`); `none` models
`UnicodeDecodeError`. -/
def utf8Decode (bs : List Nat) : Option (List Char) :=
  utf8DecodeAux bs.length bs

/-! Base62 codec, from `app/utils/encoding.py`. -/

/-- The constant `_BASE62_ALPHABET`. -/
def BASE62_ALPHABET : String :=
  "0123456789ABCDEFGHIJKLMNOPQRSTUVWXYZabcdefghijklmnopqrstuvwxyz"

/-- The constant `_BASE62_BASE`. -/
def BASE62_BASE : Nat := 62

/-- The digit list built by the while-loop of `_int_to_base62`,
least-significant digit first (`digits.append(_BASE62_ALPHABET[rem])`). -/
def int_to_base62_digits (n : Nat) : List Char :=
  if n = 0 then []
  else BASE62_ALPHABET.data.getD (n % BASE62_BASE) '0'
    :: int_to_base62_digits (n / BASE62_BASE)
termination_by n
decreasing_by
  exact Nat.div_lt_self (Nat.pos_of_ne_zero (by assumption)) (by norm_num [BASE62_BASE])

/-- Model of `_int_to_base62`: zero maps to `"0"`, otherwise the collected
digits are reversed and joined. -/
def int_to_base62 (n : Nat) : String :=
  if n = 0 then "0" else String.mk (int_to_base62_digits n).reverse

/-- Python `str.isspace`-style test on the ASCII range, as used by
`str.strip()` with no argument. (Python also strips some non-ASCII Unicode
whitespace; the identifiers handled by this codec are ASCII, so the ASCII
set is the relevant one.) -/
def pyIsSpace (c : Char) : Bool :=
  c = ' ' || c = '\t' || c = '\n' || c = '\r' || c = '\x0b' || c = '\x0c'

/-- Python `s.strip()`: drop leading and trailing whitespace. -/
def pyStrip (cs : List Char) : List Char :=
  ((cs.dropWhile pyIsSpace).reverse.dropWhile pyIsSpace).reverse

/-- Model of `_base62_to_int`: empty input short-circuits to `0`; otherwise
the stripped input is folded left with `alphabet.find(ch)`, and an invalid
character (`find` returning `-1`, i.e. `indexOf?` returning `none`) raises
`ValueError`, modelled as `none`. -/
def base62_to_int (s : String) : Option Nat :=
  if s.data = [] then some 0
  else
    (pyStrip s.data).foldlM
      (fun n ch =>
        match BASE62_ALPHABET.data.indexOf? ch with
        | none => none
        | some idx => some (n * BASE62_BASE + idx))
      0

/-- Model of `encode_channel_id`: UTF-8 bytes of the input, read as a
big-endian unsigned integer, rendered in Base62. (The `raw_string is None`
guard has no counterpart: a Lean `String` is never `None`.) -/
def encode_channel_id (raw_string : String) : String :=
  let data := utf8Encode raw_string.data
  let int_value := if data ≠ [] then intFromBytesBE data else 0
  int_to_base62 int_value

/-- Model of `decode_channel_id`. The two failure modes — `ValueError` from
`_base62_to_int` (re-raised) and `UnicodeDecodeError` from `bytes.decode`
(uncaught) — are both modelled as `none`. -/
def decode_channel_id (encoded : String) : Option String :=
  match base62_to_int encoded with
  | none => none
  | some int_value =>
    if int_value = 0 then some ""
    else
      let byte_len := (pyBitLength int_value + 7) / 8
      (utf8Decode (intToBytesBE byte_len int_value)).map String.mk

/-! Visitor channel identifiers, from `app/utils/encoding.py`. A Python
`uuid.UUID` is its 128-bit integer value, modelled as a `Nat` (< 2^128). -/

/-- The lowercase hexadecimal digit for `d` (used by Python `"%x"`). -/
def hexDigitChar (d : Nat) : Char :=
  "0123456789abcdef".data.getD d '0'

/-- Hex digits of `n`, least-significant first; empty for `0`. -/
def hexDigitsRev (n : Nat) : List Char :=
  if n = 0 then [] else hexDigitChar (n % 16) :: hexDigitsRev (n / 16)
termination_by n
decreasing_by exact Nat.div_lt_self (Nat.pos_of_ne_zero (by assumption)) (by norm_num)

/-- Python `"%032x" % n`: lowercase hex, zero-padded on the left to at least
32 digits. -/
def pyHex32 (n : Nat) : List Char :=
  let ds := if n = 0 then ['0'] else (hexDigitsRev n).reverse
  List.replicate (32 - ds.length) '0' ++ ds

/-- Python `str(uuid)`: the canonical 8-4-4-4-12 hyphenated lowercase form,
as produced by the `uuid.UUID.__str__` slicing of `"%032x" % self.int`. -/
def uuidToString (n : Nat) : String :=
  let hex := pyHex32 n
  String.mk (hex.take 8 ++ ['-'] ++ (hex.drop 8).take 4 ++ ['-']
    ++ (hex.drop 12).take 4 ++ ['-'] ++ (hex.drop 16).take 4 ++ ['-']
    ++ hex.drop 20)

/-- Numeric value of one hexadecimal character, either case, as accepted by
Python `int(s, 16)`. -/
def hexVal (c : Char) : Option Nat :=
  if '0' ≤ c ∧ c ≤ '9' then some (c.toNat - 48)
  else if 'a' ≤ c ∧ c ≤ 'f' then some (c.toNat - 87)
  else if 'A' ≤ c ∧ c ≤ 'F' then some (c.toNat - 55)
  else none

/-- Python `int(s, 16)` on a plain digit string. (Python additionally
tolerates surrounding whitespace, a sign, and underscore separators between
digits; those liberalities are irrelevant for canonically formatted UUIDs
and are not modelled.) -/
def parseHexDigits (cs : List Char) : Option Nat :=
  cs.foldlM (fun n c => (hexVal c).map (fun d => n * 16 + d)) 0

/-- Python `s.replace(pat, "")` for a non-empty pattern: remove every
occurrence of `pat`, scanning left to right. -/
def removeOccurrences (pat : List Char) : List Char → List Char
  | [] => []
  | c :: rest =>
    if h : pat.isPrefixOf (c :: rest) ∧ pat ≠ [] then
      removeOccurrences pat ((c :: rest).drop pat.length)
    else c :: removeOccurrences pat rest
termination_by s => s.length
decreasing_by
  · have hlen : pat.length ≤ (c :: rest).length :=
      (List.isPrefixOf_iff_prefix.mp h.1).sublist.length_le
    have hpos : 0 < pat.length := List.length_pos.mpr h.2
    simp only [List.length_drop]
    omega
  · simp

/-- Python `s.strip("{}")`: drop leading and trailing braces. -/
def stripBraces (cs : List Char) : List Char :=
  let isBrace : Char → Bool := fun c => c = '\x7b' || c = '\x7d'
  ((cs.dropWhile isBrace).reverse.dropWhile isBrace).reverse

/-- Model of the `uuid.UUID(hex)` constructor on its string argument:
`hex.replace("urn:", "").replace("uuid:", "")`, then `strip("{}")`, then
`replace("-", "")`; the result must be exactly 32 hex digits, whose value
is the UUID's integer (necessarily < 2^128). `none` models `ValueError`. -/
def pyUUID (s : String) : Option Nat :=
  let hex := removeOccurrences "uuid:".data (removeOccurrences "urn:".data s.data)
  let hex := removeOccurrences ['-'] (stripBraces hex)
  if hex.length = 32 then parseHexDigits hex else none

/-- The constant `VISITOR_CHANNEL_SUFFIX`. -/
def VISITOR_CHANNEL_SUFFIX : String := "-vtr"

/-- Model of `build_visitor_channel_id` applied to a `UUID` argument:
`f"{visitor_uuid}-vtr"`. -/
def build_visitor_channel_id (visitor_id : Nat) : String :=
  uuidToString visitor_id ++ VISITOR_CHANNEL_SUFFIX

/-- Model of `parse_visitor_channel_id`: require the `-vtr` suffix, strip it,
and parse the remainder as a UUID; `none` models the `ValueError` raised on a
missing suffix or an unparseable remainder. -/
def parse_visitor_channel_id (channel_id : String) : Option Nat :=
  if VISITOR_CHANNEL_SUFFIX.data.isSuffixOf channel_id.data then
    pyUUID (String.mk
      (channel_id.data.take (channel_id.data.length - VISITOR_CHANNEL_SUFFIX.data.length)))
  else none

/-! CRC32 and the deterministic session id, from `app/utils/encoding.py`. -/

/-- One bit-shift round of the reflected CRC-32 computed by `zlib.crc32`
(polynomial 0xEDB88320). -/
def crc32Round (crc : Nat) : Nat :=
  if crc % 2 = 1 then (crc / 2) ^^^ 0xEDB88320 else crc / 2

/-- Fold one input byte into the running CRC: xor it in, then run eight
bit-shift rounds. -/
def crc32UpdateByte (crc b : Nat) : Nat :=
  crc32Round^[8] (crc ^^^ b)

/-- Model of `zlib.crc32(data)` with the default starting value: initial
register 0xFFFFFFFF, bytes folded in order, final complement. -/
def zlib_crc32 (bs : List Nat) : Nat :=
  (bs.foldl crc32UpdateByte 0xFFFFFFFF) ^^^ 0xFFFFFFFF

/-- Model of `get_session_id`. For `channel_type == 1`, the two UIDs are
ordered by their CRC32 of the UTF-8 bytes (larger first); on a checksum tie
between distinct UIDs, Python string comparison (lexicographic on code
points, which Lean's `String` order matches) breaks the tie; otherwise
`f"{to_uid}@{channel_type}"`. -/
def get_session_id (from_uid to_uid : String) (channel_type : Int) : String :=
  if channel_type = 1 then
    let from_hash := zlib_crc32 (utf8Encode from_uid.data)
    let to_hash := zlib_crc32 (utf8Encode to_uid.data)
    if from_hash > to_hash then from_uid ++ "@" ++ to_uid
    else if from_uid ≠ to_uid ∧ from_hash = to_hash then
      if from_uid > to_uid then from_uid ++ "@" ++ to_uid
      else to_uid ++ "@" ++ from_uid
    else to_uid ++ "@" ++ from_uid
  else to_uid ++ "@" ++ toString channel_type

/-! The AI-fallback scheduler, from `app/tasks/auto_fallback_to_ai.py`.
Database rows are plain records; `datetime` columns are abstract `Nat`
instants and nullable columns are `Option`s. -/

/-- The constant `MAX_AI_FALLBACK_RETRIES`. -/
def MAX_AI_FALLBACK_RETRIES : Nat := 3

/-- Modelled from the spec: the `VisitorServiceStatus` enum lives in the ORM
model modules, which are not among the provided sources; per the spec (§3)
`service_status` ranges over new, queued, active and closed, with the string
values used below. This is the `ACTIVE` value. -/
def VisitorServiceStatus_ACTIVE : String := "active"

/-- Modelled from the spec: the `CLOSED` value of `VisitorServiceStatus`
(see `VisitorServiceStatus_ACTIVE`). -/
def VisitorServiceStatus_CLOSED : String := "closed"

/-- Modelled from the spec: the `SessionStatus` enum is likewise not among
the provided sources; per the spec (§3) a session is open or closed. This is
the `OPEN` value. -/
def SessionStatus_OPEN : String := "open"

/-- Modelled from the spec: the `CLOSED` value of `SessionStatus`. -/
def SessionStatus_CLOSED : String := "closed"

/-- The `Visitor` row fields this core reads and writes. -/
structure Visitor where
  id : String
  platform_id : String
  service_status : String
  is_last_message_from_visitor : Bool
  is_last_message_from_ai : Bool
  last_message_at : Option Nat
  last_client_msg_no : Option String
  ai_fallback_retry_count : Nat
  deleted_at : Option Nat
  ai_disabled : Option Bool
  updated_at : Nat
deriving DecidableEq

/-- The `Platform` row fields read by the scheduler. -/
structure Platform where
  id : String
  ai_mode : String
  fallback_to_ai_timeout : Nat
  is_active : Bool
  deleted_at : Option Nat
deriving DecidableEq

/-- The platform filter of step 1 of `check_and_fallback_to_ai`:
`ai_mode == "assist"`, `fallback_to_ai_timeout > 0`, `is_active`, not
soft-deleted. -/
def platformSelected (p : Platform) : Bool :=
  p.ai_mode == "assist" && p.fallback_to_ai_timeout != 0
    && p.is_active && p.deleted_at == none

/-- The candidate-visitor filter of step 2 of `check_and_fallback_to_ai`,
against a given platform and the tick's `cutoff_time`
(`datetime.utcnow() - timedelta(seconds=timeout_seconds)`). A null
`last_message_at` fails the SQL comparison `last_message_at < cutoff`. -/
def visitorSelected (p : Platform) (cutoff : Nat) (v : Visitor) : Bool :=
  v.platform_id == p.id
    && v.service_status == VisitorServiceStatus_ACTIVE
    && v.is_last_message_from_visitor
    && (match v.last_message_at with
        | some t => decide (t < cutoff)
        | none => false)
    && v.last_client_msg_no.isSome
    && decide (v.ai_fallback_retry_count < MAX_AI_FALLBACK_RETRIES)
    && v.deleted_at == none
    && (v.ai_disabled == none || v.ai_disabled == some false)

/-- The message object returned by
`wukongim_client.get_message_by_client_msg_no`. The scheduler only reads
`payload.get("content", "")`, so the payload is collapsed to that lookup:
`none` models a falsy `payload` (absent or empty dict), and `some c` a
payload whose content lookup yields `c` (a dict without the key yields
`some ""`). -/
structure BusMessage where
  payload : Option String
deriving DecidableEq

/-- The `message_content` extraction of step 3 of the candidate loop. -/
def messageContent (m : BusMessage) : String :=
  match m.payload with
  | none => ""
  | some c => c

/-- The open `VisitorSession` row found by the step-4 query; its filter
`staff_id.isnot(None)` guarantees a non-null `staff_id`. -/
structure OpenStaffSession where
  staff_id : String
deriving DecidableEq

/-- Python truthiness of the AI collaborator's result: `None` and the empty
string are falsy. -/
def pyTruthyResult (o : Option String) : Bool :=
  match o with
  | none => false
  | some r => !(r == "")

/-- External outcomes consumed while processing one fallback candidate:
the messaging-bus lookup (which may raise), the open-session query result,
the awaited AI call (which may raise or return a falsy result), and the hex
of the `uuid4()` drawn for the response correlation id. -/
structure FallbackEnv where
  fetched : Except Unit (Option BusMessage)
  open_staff_session : Option OpenStaffSession
  ai_outcome : Except Unit (Option String)
  uuid4_hex : String

/-- The body of the `for visitor in visitors` loop of
`check_and_fallback_to_ai`, as a function of the external outcomes. Returns
the updated visitor row and whether the AI collaborator was invoked.
An exception from the message lookup is caught by the outer handler
(rollback, continue), leaving the row unchanged; a missing message, empty
content or missing staffed session forces the retry count to
`MAX_AI_FALLBACK_RETRIES`; an AI exception or falsy result increments it;
a truthy result flips the sender flags, stores the new correlation id
`f"ai_fallback_{uuid4().hex}"` and resets the count. -/
def processCandidate (v : Visitor) (env : FallbackEnv) : Visitor × Bool :=
  match env.fetched with
  | .error _ => (v, false)
  | .ok none =>
    ({ v with ai_fallback_retry_count := MAX_AI_FALLBACK_RETRIES }, false)
  | .ok (some last_msg) =>
    let message_content := messageContent last_msg
    if message_content = "" then
      ({ v with ai_fallback_retry_count := MAX_AI_FALLBACK_RETRIES }, false)
    else
      let response_client_msg_no := "ai_fallback_" ++ env.uuid4_hex
      match env.open_staff_session with
      | none =>
        ({ v with ai_fallback_retry_count := MAX_AI_FALLBACK_RETRIES }, false)
      | some _ =>
        match env.ai_outcome with
        | .error _ =>
          ({ v with ai_fallback_retry_count := v.ai_fallback_retry_count + 1 },
            true)
        | .ok ai_result =>
          if pyTruthyResult ai_result then
            ({ v with is_last_message_from_ai := true,
                      is_last_message_from_visitor := false,
                      last_client_msg_no := some response_client_msg_no,
                      ai_fallback_retry_count := 0 }, true)
          else
            ({ v with ai_fallback_retry_count := v.ai_fallback_retry_count + 1 },
              true)

/-- One visitor's fate during a tick against one platform: the candidate
loop body runs only if the platform passed step 1 and the visitor passed the
step-2 filter; otherwise the row is untouched and no AI call happens. -/
def tickVisitor (p : Platform) (cutoff : Nat) (v : Visitor) (env : FallbackEnv) :
    Visitor × Bool :=
  if platformSelected p && visitorSelected p cutoff v then processCandidate v env
  else (v, false)

/-! The session close orchestrator, from `app/services/session_service.py`. -/

/-- The `VisitorSession` row fields this core reads and writes. The row's
creation instant is named `opened_at` after the spec (§3, §4.3). -/
structure SessionRec where
  id : String
  visitor_id : String
  staff_id : Option String
  project_id : Option String
  status : String
  opened_at : Nat
  closed_at : Option Nat
  duration_seconds : Option Nat
  last_message_seq : Option Nat
  last_message_at : Option Nat
  updated_at : Nat
deriving DecidableEq

/-- Modelled from the spec: `VisitorSession.close()` is defined in the ORM
model module, which is not among the provided sources; the call site notes
it sets `status=closed`, `closed_at`, and calculates duration, and the spec
(§4.3 step 2) fixes `duration_seconds = closed_at - opened_at`. -/
def SessionRec.close (s : SessionRec) (now : Nat) : SessionRec :=
  { s with status := SessionStatus_CLOSED,
           closed_at := some now,
           duration_seconds := some (now - s.opened_at) }

/-- The `ChannelMember` row fields touched by the close protocol. -/
structure ChannelMemberRec where
  channel_id : String
  member_id : String
  member_type : String
  deleted_at : Option Nat
deriving DecidableEq

/-- The database state `close_visitor_session` reads and writes: the session
being closed, its `session.visitor` relationship (`none` if not loaded), and
the step-4 `ChannelMember` query result (`none` when no live row matches). -/
structure CloseState where
  session : SessionRec
  visitor : Option Visitor
  channel_member : Option ChannelMemberRec
deriving DecidableEq

/-- The response of `wukongim_client.get_channel_last_message`. The
timestamp is in seconds; the code guards on its truthiness, so a `0` value
is treated like an absent one. -/
structure BusLastMessage where
  message_seq : Nat
  timestamp : Nat
deriving DecidableEq

/-- External outcomes consumed by one `close_visitor_session` run: the
current instant (`datetime.utcnow()`), the messaging-bus snapshot (which may
raise or find nothing), the step-4 database block — the `ChannelMember`
query, soft-delete assignment and `db.flush()`, which run outside any
handler and may therefore raise — and the four best-effort collaborator
calls, each of which may raise. -/
structure CloseEnv where
  now : Nat
  last_message : Except Unit (Option BusLastMessage)
  channel_member_flush : Except Unit Unit
  remove_subscribers : Except Unit Unit
  send_closed_message : Except Unit Unit
  delete_conversation : Except Unit Unit
  trigger_queue : Except Unit Unit

/-- The external calls `close_visitor_session` can issue, in protocol
order. -/
inductive ExtCall where
  | get_channel_last_message
  | remove_channel_subscribers
  | send_session_closed_message
  | delete_conversation
  | trigger_queue_for_staff
deriving DecidableEq

/-- Model of `close_visitor_session`. Returns the Python return value, the
final database state, and the external calls attempted, in order; `.error`
models a raise — the `ValueError` on an already-closed session, or a
database exception escaping the function. Step 1 tolerates a thrown
snapshot; step 2 closes the session and stamps `updated_at`; step 3 marks
the loaded visitor closed. Step 4's `ChannelMember` query, soft-delete and
`db.flush()` run with no handler of their own, so when they raise the
exception propagates and aborts the remaining steps — the step-2 state
having already been committed; only the bus and queue calls of steps 4–7
are each wrapped in a handler that logs and continues. `db.commit` and
`db.refresh` are identities here, the state being explicit. -/
def close_visitor_session (st : CloseState) (closed_by_staff : Option String)
    (send_notification : Bool) (auto_commit : Bool) (env : CloseEnv) :
    Except String SessionRec × CloseState × List ExtCall :=
  if st.session.status = SessionStatus_CLOSED then
    (.error "Session is already closed", st, [])
  else
    let session1 :=
      match env.last_message with
      | .error _ => st.session
      | .ok none => st.session
      | .ok (some lm) =>
        let s := { st.session with last_message_seq := some lm.message_seq }
        if lm.timestamp ≠ 0 then { s with last_message_at := some lm.timestamp }
        else s
    let session2 := { session1.close env.now with updated_at := env.now }
    let visitor2 :=
      match st.visitor with
      | some v => some { v with service_status := VisitorServiceStatus_CLOSED,
                                updated_at := env.now }
      | none => none
    let calls5 :=
      if send_notification then
        let r5 : Unit := match env.send_closed_message with
          | .error _ => ()
          | .ok u => u
        [ExtCall.send_session_closed_message]
      else []
    let calls6 :=
      match session2.staff_id with
      | some _ =>
        let r6 : Unit := match env.delete_conversation with
          | .error _ => ()
          | .ok u => u
        [ExtCall.delete_conversation]
      | none => []
    let calls7 :=
      match session2.staff_id, session2.project_id with
      | some _, some _ =>
        let r7 : Unit := match env.trigger_queue with
          | .error _ => ()
          | .ok u => u
        [ExtCall.trigger_queue_for_staff]
      | _, _ => []
    match session2.staff_id with
    | none =>
      let final : CloseState :=
        { session := session2, visitor := visitor2,
          channel_member := st.channel_member }
      (.ok session2, final,
        ExtCall.get_channel_last_message :: calls5 ++ calls6 ++ calls7)
    | some _ =>
      match env.channel_member_flush with
      | .error _ =>
        (.error "ChannelMember soft-delete failed",
          { session := session2, visitor := visitor2,
            channel_member := st.channel_member },
          [ExtCall.get_channel_last_message])
      | .ok _ =>
        let cm :=
          match st.channel_member with
          | some cm2 => some { cm2 with deleted_at := some env.now }
          | none => st.channel_member
        let r4 : Unit := match env.remove_subscribers with
          | .error _ => ()
          | .ok u => u
        let final : CloseState :=
          { session := session2, visitor := visitor2, channel_member := cm }
        (.ok session2, final,
          ExtCall.get_channel_last_message
            :: ExtCall.remove_channel_subscribers :: calls5 ++ calls6 ++ calls7)

/-! Concrete rows and environments used to exercise the model on closed
instances. -/

/-- A platform in assist mode with a 30-second fallback timeout. -/
def pSample : Platform :=
  { id := "p1", ai_mode := "assist", fallback_to_ai_timeout := 30,
    is_active := true, deleted_at := none }

/-- An active visitor whose last message, from the visitor, is stalled. -/
def vSample : Visitor :=
  { id := "v1", platform_id := "p1", service_status := "active",
    is_last_message_from_visitor := true, is_last_message_from_ai := false,
    last_message_at := some 0, last_client_msg_no := some "abc",
    ai_fallback_retry_count := 0, deleted_at := none, ai_disabled := none,
    updated_at := 0 }

/-- The same visitor after three failed fallback attempts. -/
def vSampleMax : Visitor := { vSample with ai_fallback_retry_count := 3 }

/-- Outcomes for a fully successful fallback attempt: message recovered with
content, a staffed open session, a truthy AI result. -/
def envOk : FallbackEnv :=
  { fetched := .ok (some { payload := some "hello" }),
    open_staff_session := some { staff_id := "st1" },
    ai_outcome := .ok (some "answer"), uuid4_hex := "deadbeef" }

/-- Like `envOk` but with no open staffed session. -/
def envNoStaff : FallbackEnv := { envOk with open_staff_session := none }

/-- Like `envOk` but the original message is gone from the bus. -/
def envNoMsg : FallbackEnv := { envOk with fetched := .ok none }

/-- An open staffed session row. -/
def sessOpen : SessionRec :=
  { id := "s1", visitor_id := "v1", staff_id := some "st1",
    project_id := some "pr1", status := "open", opened_at := 100,
    closed_at := none, duration_seconds := none, last_message_seq := none,
    last_message_at := none, updated_at := 100 }

/-- Database state around `sessOpen`: visitor loaded, one live staff
channel-member row. -/
def stSample : CloseState :=
  { session := sessOpen, visitor := some vSample,
    channel_member := some { channel_id := "ch", member_id := "st1",
                             member_type := "staff", deleted_at := none } }

/-- Database state whose session is already closed. -/
def stClosed : CloseState :=
  { stSample with session := { sessOpen with status := "closed" } }

/-- A close run during which every external collaborator call throws; the
local database flush itself succeeds. -/
def closeEnvAllFail : CloseEnv :=
  { now := 160, last_message := .error (), channel_member_flush := .ok (),
    remove_subscribers := .error (), send_closed_message := .error (),
    delete_conversation := .error (), trigger_queue := .error () }

/-- A close run during which every collaborator call succeeds but the
unguarded `ChannelMember` soft-delete flush raises. -/
def closeEnvCMFail : CloseEnv :=
  { now := 160, last_message := .ok none, channel_member_flush := .error (),
    remove_subscribers := .ok (), send_closed_message := .ok (),
    delete_conversation := .ok (), trigger_queue := .ok () }

/-! Theorems. Helper lemmas come first, then each claim's theorem with its
witness or counterexample. -/

/-- A fold of `_base62_to_int` steps dies as soon as it meets a character
outside the alphabet. -/
theorem base62_fold_none {l : List Char} {c : Char} (hmem : c ∈ l)
    (hc : c ∉ BASE62_ALPHABET.data) (a : Nat) :
    l.foldlM
      (fun n ch =>
        match BASE62_ALPHABET.data.indexOf? ch with
        | none => none
        | some idx => some (n * BASE62_BASE + idx))
      a = none := by
  induction l generalizing a with
  | nil => cases hmem
  | cons x xs ih =>
    rcases List.mem_cons.mp hmem with rfl | hx
    · have hnone : BASE62_ALPHABET.data.indexOf? c = none := by
        have : ∀ y ∈ BASE62_ALPHABET.data, (y == c) = false := by
          intro y hy
          cases hyc : y == c
          · rfl
          · exact absurd (eq_of_beq hyc ▸ hy) hc
        simpa [List.indexOf?] using List.findIdx?_eq_none_iff.mpr this
      simp [List.foldlM_cons, hnone]
    · cases hidx : BASE62_ALPHABET.data.indexOf? x with
      | none => simp [List.foldlM_cons, hidx]
      | some i => simp [List.foldlM_cons, hidx, ih hx]

/-- If the stripped input still holds a non-alphabet character,
`_base62_to_int` raises. -/
theorem base62_to_int_none {s : String} {c : Char} (hmem : c ∈ pyStrip s.data)
    (hc : c ∉ BASE62_ALPHABET.data) : base62_to_int s = none := by
  unfold base62_to_int
  have hne : ¬s.data = [] := by
    intro h0
    rw [h0] at hmem
    simp [pyStrip] at hmem
  rw [if_neg hne]
  exact base62_fold_none hmem hc 0

/-- Claim C9 as frozen is false: `decode_channel_id` first strips leading and
trailing whitespace, so the input consisting of one space — a character
outside the 62-symbol alphabet — decodes without error (to the empty
string). -/
theorem claim_C9_counterexample :
    (' ' ∈ " ".data ∧ ' ' ∉ BASE62_ALPHABET.data) ∧
      decode_channel_id " " = some "" := by
  constructor
  · constructor
    · decide
    · decide
  · decide

/-- Claim C9 (amended): for every input string that still contains a
character outside the 62-symbol alphabet after leading and trailing
whitespace is stripped, `decode_channel_id` fails with a format error
(`none`); only surrounding whitespace is silently tolerated. -/
theorem claim_C9 (s : String) (c : Char) (hmem : c ∈ pyStrip s.data)
    (hc : c ∉ BASE62_ALPHABET.data) : decode_channel_id s = none := by
  unfold decode_channel_id
  rw [base62_to_int_none hmem hc]

/-- Witness for C9 at the concrete input `"1!2"`. -/
theorem claim_C9_witness : decode_channel_id "1!2" = none :=
  claim_C9 "1!2" '!' (by decide) (by decide)

/-- Claim C2: for a fallback candidate whose message is recovered with
content, with an open staffed session, when the awaited AI call returns a
truthy (non-empty) result, the scheduler flips the sender flags, stores the
fresh `ai_fallback_...` correlation id, resets the retry count, and the
updated row fails the candidate filter of every later tick, so the same
stalled message cannot trigger a second AI invocation. -/
theorem claim_C2 (p : Platform) (cutoff : Nat) (v : Visitor)
    (env : FallbackEnv) (m : BusMessage) (s : OpenStaffSession)
    (r : Option String)
    (hsel : visitorSelected p cutoff v = true)
    (hf : env.fetched = .ok (some m))
    (hcontent : messageContent m ≠ "")
    (hs : env.open_staff_session = some s)
    (hai : env.ai_outcome = .ok r)
    (ht : pyTruthyResult r = true) :
    (processCandidate v env).1.is_last_message_from_ai = true ∧
    (processCandidate v env).1.is_last_message_from_visitor = false ∧
    (processCandidate v env).1.last_client_msg_no
      = some ("ai_fallback_" ++ env.uuid4_hex) ∧
    (processCandidate v env).1.ai_fallback_retry_count = 0 ∧
    ∀ (p2 : Platform) (cutoff2 : Nat),
      visitorSelected p2 cutoff2 (processCandidate v env).1 = false := by
  have hproc : (processCandidate v env).1 =
      { v with is_last_message_from_ai := true,
               is_last_message_from_visitor := false,
               last_client_msg_no := some ("ai_fallback_" ++ env.uuid4_hex),
               ai_fallback_retry_count := 0 } := by
    unfold processCandidate
    rw [hf, hs, hai]
    simp [hcontent, ht]
  refine ⟨by simp [hproc], by simp [hproc], by simp [hproc], by simp [hproc], ?_⟩
  intro p2 cutoff2
  simp [hproc, visitorSelected]

/-- Witness for C2 on the sample candidate and a fully successful
environment. -/
theorem claim_C2_witness :
    (processCandidate vSample envOk).1.is_last_message_from_ai = true ∧
    (processCandidate vSample envOk).1.is_last_message_from_visitor = false ∧
    (processCandidate vSample envOk).1.last_client_msg_no
      = some ("ai_fallback_" ++ envOk.uuid4_hex) ∧
    (processCandidate vSample envOk).1.ai_fallback_retry_count = 0 ∧
    visitorSelected pSample 31 (processCandidate vSample envOk).1 = false := by
  have h := claim_C2 pSample 31 vSample envOk { payload := some "hello" }
    { staff_id := "st1" } (some "answer") (by decide) rfl (by decide) rfl rfl
    (by decide)
  exact ⟨h.1, h.2.1, h.2.2.1, h.2.2.2.1, h.2.2.2.2 pSample 31⟩

/-- Claim C4: a fallback candidate whose message is recovered with content
but which has no open session with an assigned staff member gets its retry
count forced to 3, and the AI collaborator is not invoked. -/
theorem claim_C4 (p : Platform) (cutoff : Nat) (v : Visitor)
    (env : FallbackEnv) (m : BusMessage)
    (hsel : visitorSelected p cutoff v = true)
    (hf : env.fetched = .ok (some m))
    (hcontent : messageContent m ≠ "")
    (hs : env.open_staff_session = none) :
    processCandidate v env =
      ({ v with ai_fallback_retry_count := MAX_AI_FALLBACK_RETRIES }, false) := by
  unfold processCandidate
  rw [hf, hs]
  simp [hcontent]

/-- Witness for C4 on the sample candidate with no staffed session. -/
theorem claim_C4_witness :
    processCandidate vSample envNoStaff =
      ({ vSample with ai_fallback_retry_count := MAX_AI_FALLBACK_RETRIES },
        false) :=
  claim_C4 pSample 31 vSample envNoStaff { payload := some "hello" }
    (by decide) rfl (by decide) rfl

/-- Claim C10: whenever the scheduler marks a candidate permanently
unrecoverable — message not found, message content empty, or no open staffed
session — the only Visitor field it writes is `ai_fallback_retry_count`
(set to 3); the service status, sender flags, correlation id, last-message
instant and `ai_disabled` are untouched. -/
theorem claim_C10 (v : Visitor) (env : FallbackEnv)
    (h : env.fetched = .ok none
      ∨ (∃ m, env.fetched = .ok (some m) ∧ messageContent m = "")
      ∨ (∃ m, env.fetched = .ok (some m) ∧ messageContent m ≠ "" ∧
          env.open_staff_session = none)) :
    (processCandidate v env).1
      = { v with ai_fallback_retry_count := MAX_AI_FALLBACK_RETRIES } ∧
    (processCandidate v env).1.service_status = v.service_status ∧
    (processCandidate v env).1.is_last_message_from_visitor
      = v.is_last_message_from_visitor ∧
    (processCandidate v env).1.is_last_message_from_ai
      = v.is_last_message_from_ai ∧
    (processCandidate v env).1.last_client_msg_no = v.last_client_msg_no ∧
    (processCandidate v env).1.last_message_at = v.last_message_at ∧
    (processCandidate v env).1.ai_disabled = v.ai_disabled := by
  have hproc : (processCandidate v env).1
      = { v with ai_fallback_retry_count := MAX_AI_FALLBACK_RETRIES } := by
    rcases h with h0 | ⟨m, hm, hc⟩ | ⟨m, hm, hc, hs⟩
    · unfold processCandidate
      rw [h0]
    · unfold processCandidate
      rw [hm]
      simp [hc]
    · unfold processCandidate
      rw [hm, hs]
      simp [hc]
  exact ⟨hproc, by simp [hproc], by simp [hproc], by simp [hproc],
    by simp [hproc], by simp [hproc], by simp [hproc]⟩

/-- Witness for C10 on the sample candidate with a vanished message. -/
theorem claim_C10_witness :
    (processCandidate vSample envNoMsg).1
      = { vSample with ai_fallback_retry_count := MAX_AI_FALLBACK_RETRIES } ∧
    (processCandidate vSample envNoMsg).1.service_status
      = vSample.service_status ∧
    (processCandidate vSample envNoMsg).1.is_last_message_from_visitor
      = vSample.is_last_message_from_visitor ∧
    (processCandidate vSample envNoMsg).1.is_last_message_from_ai
      = vSample.is_last_message_from_ai ∧
    (processCandidate vSample envNoMsg).1.last_client_msg_no
      = vSample.last_client_msg_no ∧
    (processCandidate vSample envNoMsg).1.last_message_at
      = vSample.last_message_at ∧
    (processCandidate vSample envNoMsg).1.ai_disabled = vSample.ai_disabled :=
  claim_C10 vSample envNoMsg (Or.inl rfl)

/-- Claim C3: starting from a retry count of at most 3, no scheduler tick —
whether it increments on failure, forces the count on a permanently
unrecoverable candidate, or resets it on success — ever pushes
`ai_fallback_retry_count` past 3; and a visitor whose count equals 3 is
excluded from the candidate set of every tick, whatever the platform and
cutoff. -/
theorem claim_C3 (p : Platform) (cutoff : Nat) (v : Visitor)
    (env : FallbackEnv)
    (h : v.ai_fallback_retry_count ≤ MAX_AI_FALLBACK_RETRIES) :
    (tickVisitor p cutoff v env).1.ai_fallback_retry_count
      ≤ MAX_AI_FALLBACK_RETRIES ∧
    (v.ai_fallback_retry_count = MAX_AI_FALLBACK_RETRIES →
      ∀ (p2 : Platform) (cutoff2 : Nat), visitorSelected p2 cutoff2 v = false) := by
  constructor
  · unfold tickVisitor
    by_cases hsel : (platformSelected p && visitorSelected p cutoff v) = true
    · rw [if_pos hsel]
      have hlt : v.ai_fallback_retry_count < MAX_AI_FALLBACK_RETRIES := by
        rcases Nat.lt_or_ge v.ai_fallback_retry_count MAX_AI_FALLBACK_RETRIES
          with hlt | hge
        · exact hlt
        · exfalso
          rw [Bool.and_eq_true] at hsel
          have h2 := hsel.2
          simp [visitorSelected, Bool.and_eq_true] at h2
          exact absurd h2.1.1.2 (Nat.not_lt.mpr hge)
      unfold processCandidate
      rcases env with ⟨f, oss, ai, uh⟩
      rcases f with e | o
      · simpa using h
      · rcases o with _ | m
        · simp
        · dsimp only
          split
          · simp
          · rcases oss with _ | st
            · simp
            · rcases ai with e2 | r
              · simp
                omega
              · dsimp only
                split
                · simp
                · simp
                  omega
    · rw [if_neg hsel]
      exact h
  · intro h3 p2 cutoff2
    simp [visitorSelected, h3, MAX_AI_FALLBACK_RETRIES]

/-- Witness for C3 on the exhausted sample visitor. -/
theorem claim_C3_witness :
    (tickVisitor pSample 31 vSampleMax envOk).1.ai_fallback_retry_count
      ≤ MAX_AI_FALLBACK_RETRIES ∧
    visitorSelected pSample 31 vSampleMax = false := by
  have h := claim_C3 pSample 31 vSampleMax envOk (by decide)
  exact ⟨h.1, h.2 (by decide) pSample 31⟩

/-- Claim C6: closing a session whose status is already closed raises the
already-closed error before anything happens: the database state is
untouched and no external call is made. A second close of the same session
therefore raises and changes nothing. -/
theorem claim_C6 (st : CloseState) (closed_by_staff : Option String)
    (send_notification auto_commit : Bool) (env : CloseEnv)
    (h : st.session.status = SessionStatus_CLOSED) :
    close_visitor_session st closed_by_staff send_notification auto_commit env
      = (.error "Session is already closed", st, []) := by
  unfold close_visitor_session
  rw [if_pos h]

/-- Witness for C6 on the already-closed sample state with every external
call primed to run. -/
theorem claim_C6_witness :
    close_visitor_session stClosed (some "st1") true true closeEnvAllFail
      = (.error "Session is already closed", stClosed, []) :=
  claim_C6 stClosed (some "st1") true true closeEnvAllFail rfl

/-- Claim C5 as frozen is false: the claim lists the ChannelMember
soft-delete among the steps whose failure the close tolerates, but in the
source that query/flush block runs with no handler, so when it raises the
exception propagates and `close_visitor_session` raises instead of
returning the closed session — here on a non-closed staffed session whose
every collaborator call succeeds and whose only failure is that flush. -/
theorem claim_C5_counterexample :
    stSample.session.status ≠ SessionStatus_CLOSED ∧
    closeEnvCMFail.channel_member_flush = .error () ∧
    (close_visitor_session stSample (some "st1") true true closeEnvCMFail).1
      = .error "ChannelMember soft-delete failed" := by
  refine ⟨by decide, rfl, rfl⟩

/-- Claim C5 (amended): for a non-closed session with its visitor loaded,
whatever the external outcomes, the close always marks the session closed,
stamps `closed_at`, computes `duration_seconds` from `opened_at`, and marks
the visitor's service status closed; it returns the closed session rather
than raising whenever the unguarded ChannelMember soft-delete does not
throw (in particular under any combination of snapshot and best-effort call
failures); but when the session has assigned staff and that soft-delete
flush throws, the exception propagates and the close raises — the one
enumerated step whose failure aborts the return. -/
theorem claim_C5 (st : CloseState) (closed_by_staff : Option String)
    (send_notification auto_commit : Bool) (env : CloseEnv) (v : Visitor)
    (hst : st.session.status ≠ SessionStatus_CLOSED)
    (hv : st.visitor = some v) :
    (close_visitor_session st closed_by_staff send_notification auto_commit
        env).2.1.session.status = SessionStatus_CLOSED ∧
    (close_visitor_session st closed_by_staff send_notification auto_commit
        env).2.1.session.closed_at = some env.now ∧
    (close_visitor_session st closed_by_staff send_notification auto_commit
        env).2.1.session.duration_seconds
      = some (env.now - st.session.opened_at) ∧
    (close_visitor_session st closed_by_staff send_notification auto_commit
        env).2.1.visitor
      = some { v with service_status := VisitorServiceStatus_CLOSED,
                      updated_at := env.now } ∧
    ((st.session.staff_id = none ∨ env.channel_member_flush = .ok ()) →
      (close_visitor_session st closed_by_staff send_notification auto_commit
          env).1
        = .ok (close_visitor_session st closed_by_staff send_notification
            auto_commit env).2.1.session) ∧
    (∀ staff : String, st.session.staff_id = some staff →
      env.channel_member_flush = .error () →
      (close_visitor_session st closed_by_staff send_notification auto_commit
          env).1
        = .error "ChannelMember soft-delete failed") := by
  unfold close_visitor_session
  rw [if_neg hst]
  rcases env with ⟨now, lmsg, cmf, rs, scm, dc, tq⟩
  rcases lmsg with e | o
  · rcases hsid : st.session.staff_id with _ | staff <;>
      rcases cmf with e2 | u2 <;>
      simp [SessionRec.close, hv, hsid]
  · rcases o with _ | lm
    · rcases hsid : st.session.staff_id with _ | staff <;>
        rcases cmf with e2 | u2 <;>
        simp [SessionRec.close, hv, hsid]
    · by_cases htime : lm.timestamp = 0
      · rcases hsid : st.session.staff_id with _ | staff <;>
          rcases cmf with e2 | u2 <;>
          simp [SessionRec.close, hv, hsid, htime]
      · rcases hsid : st.session.staff_id with _ | staff <;>
          rcases cmf with e2 | u2 <;>
          simp [SessionRec.close, hv, hsid, htime]

/-- Witness for C5 on the sample open staffed session when every external
collaborator call throws but the local flush succeeds: the session closes
and the call returns it. -/
theorem claim_C5_witness :
    (close_visitor_session stSample (some "st1") true true
        closeEnvAllFail).2.1.session.status = SessionStatus_CLOSED ∧
    (close_visitor_session stSample (some "st1") true true
        closeEnvAllFail).2.1.session.closed_at = some closeEnvAllFail.now ∧
    (close_visitor_session stSample (some "st1") true true
        closeEnvAllFail).2.1.session.duration_seconds
      = some (closeEnvAllFail.now - stSample.session.opened_at) ∧
    (close_visitor_session stSample (some "st1") true true
        closeEnvAllFail).2.1.visitor
      = some { vSample with service_status := VisitorServiceStatus_CLOSED,
                            updated_at := closeEnvAllFail.now } ∧
    (close_visitor_session stSample (some "st1") true true
        closeEnvAllFail).1
      = .ok (close_visitor_session stSample (some "st1") true true
          closeEnvAllFail).2.1.session := by
  have h := claim_C5 stSample (some "st1") true true closeEnvAllFail vSample
    (by decide) rfl
  exact ⟨h.1, h.2.1, h.2.2.1, h.2.2.2.1, h.2.2.2.2.1 (Or.inr rfl)⟩

/-- Claim C7: for personal channels (`channel_type == 1`) the generated
session id is symmetric in the two UIDs — ordering is decided by the larger
CRC32 checksum, with lexicographic string comparison breaking checksum
ties — and for every other channel type the id is `f"{to_uid}@{channel_type}"`. -/
theorem claim_C7 :
    (∀ a b : String, get_session_id a b 1 = get_session_id b a 1) ∧
    (∀ (a b : String) (t : Int), t ≠ 1 →
      get_session_id a b t = b ++ "@" ++ toString t) := by
  constructor
  · intro a b
    unfold get_session_id
    rw [if_pos rfl, if_pos rfl]
    rcases lt_trichotomy (zlib_crc32 (utf8Encode a.data))
      (zlib_crc32 (utf8Encode b.data)) with hlt | heq | hgt
    · rw [if_neg (by omega), if_neg (by omega), if_pos (by omega)]
    · by_cases hab : a = b
      · subst hab
        rfl
      · have e1 : ¬ (zlib_crc32 (utf8Encode b.data)
            < zlib_crc32 (utf8Encode a.data)) := by omega
        have e2 : ¬ (zlib_crc32 (utf8Encode a.data)
            < zlib_crc32 (utf8Encode b.data)) := by omega
        rcases lt_trichotomy a b with h1 | h1 | h1
        · rw [if_neg e1, if_pos ⟨hab, heq⟩, if_neg (lt_asymm h1),
            if_neg e2, if_pos ⟨Ne.symm hab, heq.symm⟩, if_pos h1]
        · exact absurd h1 hab
        · rw [if_neg e1, if_pos ⟨hab, heq⟩, if_pos h1,
            if_neg e2, if_pos ⟨Ne.symm hab, heq.symm⟩, if_neg (lt_asymm h1)]
    · rw [if_pos (by omega), if_neg (by omega), if_neg (by omega)]
  · intro a b t ht
    unfold get_session_id
    rw [if_neg ht]

/-- Witness for C7 at a non-personal channel type. -/
theorem claim_C7_witness :
    get_session_id "alice-staff" "bob-vtr" 251
      = "bob-vtr" ++ "@" ++ toString (251 : Int) :=
  claim_C7.2 "alice-staff" "bob-vtr" 251 (by decide)

/-- Characterization of `pyBitLength`, matching the defining property of
`int.bit_length()`. -/
theorem pyBitLength_le (n : Nat) : ∀ m : Nat, pyBitLength m ≤ n ↔ m < 2 ^ n := by
  induction n with
  | zero =>
    intro m
    rw [pyBitLength]
    by_cases hm : m = 0
    · simp [hm]
    · simp [hm]
  | succ n ih =>
    intro m
    rw [pyBitLength]
    by_cases hm : m = 0
    · simp [hm]
    · rw [if_neg hm]
      have h2 := ih (m / 2)
      have h3 : (2:Nat) ^ (n + 1) = 2 * 2 ^ n := by ring
      omega

/-- Folding `intFromBytesBE`'s step from an arbitrary accumulator. -/
theorem intFromBytesBE_acc (l : List Nat) :
    ∀ a : Nat, l.foldl (fun n b => n * 256 + b) a
      = a * 256 ^ l.length + intFromBytesBE l := by
  induction l with
  | nil => intro a; simp [intFromBytesBE]
  | cons x xs ih =>
    intro a
    have hx : intFromBytesBE (x :: xs) = x * 256 ^ xs.length + intFromBytesBE xs := by
      show List.foldl _ (0 * 256 + x) xs = _
      rw [ih (0 * 256 + x)]
      ring_nf
    simp only [List.foldl_cons, List.length_cons, ih (a * 256 + x), hx]
    ring

/-- Big-endian byte value of a cons cell. -/
theorem intFromBytesBE_cons (b : Nat) (l : List Nat) :
    intFromBytesBE (b :: l) = b * 256 ^ l.length + intFromBytesBE l := by
  show List.foldl _ (0 * 256 + b) l = _
  rw [intFromBytesBE_acc l (0 * 256 + b)]
  ring_nf

/-- A byte list with in-range entries denotes a value below `256 ^ length`. -/
theorem intFromBytesBE_lt (l : List Nat) (h : ∀ b ∈ l, b < 256) :
    intFromBytesBE l < 256 ^ l.length := by
  induction l with
  | nil => simp [intFromBytesBE]
  | cons x xs ih =>
    have hx : x < 256 := h x (by simp)
    have hxs := ih (fun b hb => h b (List.mem_cons_of_mem x hb))
    rw [intFromBytesBE_cons]
    have : (256:Nat) ^ (x :: xs).length = 256 ^ xs.length * 256 := by
      simp [List.length_cons]
      ring
    rw [this]
    nlinarith [Nat.pos_pow_of_pos xs.length (show 0 < 256 by norm_num)]

/-- A nonzero leading byte puts the value at or above `256 ^ (length - 1)`. -/
theorem intFromBytesBE_ge (b : Nat) (l : List Nat) (hb : b ≠ 0) :
    256 ^ l.length ≤ intFromBytesBE (b :: l) := by
  rw [intFromBytesBE_cons]
  have h1 : 1 * 256 ^ l.length ≤ b * 256 ^ l.length :=
    Nat.mul_le_mul_right _ (Nat.one_le_iff_ne_zero.mpr hb)
  omega

/-- `to_bytes` inverts `from_bytes` at the exact length. -/
theorem intToBytesBE_intFromBytesBE (l : List Nat) (h : ∀ b ∈ l, b < 256) :
    intToBytesBE l.length (intFromBytesBE l) = l := by
  induction l using List.reverseRecOn with
  | nil => rfl
  | append_singleton xs b ih =>
    have hb : b < 256 := h b (by simp)
    have hxs : ∀ x ∈ xs, x < 256 := fun x hx => h x (by simp [hx])
    have hval : intFromBytesBE (xs ++ [b]) = intFromBytesBE xs * 256 + b := by
      unfold intFromBytesBE
      rw [List.foldl_append]
      rfl
    have hlen : (xs ++ [b]).length = xs.length + 1 := by simp
    rw [hlen, hval, intToBytesBE]
    have hdiv : (intFromBytesBE xs * 256 + b) / 256 = intFromBytesBE xs := by omega
    have hmod : (intFromBytesBE xs * 256 + b) % 256 = b := by omega
    rw [hdiv, hmod, ih hxs]

/-- The `byte_len` computed by `decode_channel_id` recovers the exact byte
count of a list with a nonzero leading byte. -/
theorem byteLen_exact (b : Nat) (l : List Nat) (hb : b ≠ 0)
    (h : ∀ x ∈ b :: l, x < 256) :
    (pyBitLength (intFromBytesBE (b :: l)) + 7) / 8 = (b :: l).length := by
  have hpow : ∀ k : Nat, (256:Nat) ^ k = 2 ^ (8 * k) := by
    intro k
    rw [show (256:Nat) = 2 ^ 8 from rfl, ← pow_mul]
  have hup : intFromBytesBE (b :: l) < 2 ^ (8 * (l.length + 1)) := by
    have := intFromBytesBE_lt (b :: l) h
    rwa [List.length_cons, hpow (l.length + 1)] at this
  have hlo : 2 ^ (8 * l.length) ≤ intFromBytesBE (b :: l) := by
    have := intFromBytesBE_ge b l hb
    rwa [hpow l.length] at this
  have h1 : pyBitLength (intFromBytesBE (b :: l)) ≤ 8 * (l.length + 1) :=
    (pyBitLength_le _ _).mpr hup
  have h2 : ¬ pyBitLength (intFromBytesBE (b :: l)) ≤ 8 * l.length := by
    intro hle
    exact absurd ((pyBitLength_le _ _).mp hle) (Nat.not_lt.mpr hlo)
  simp only [List.length_cons]
  omega

/-- One character's UTF-8 encoding is nonempty, decodes back to the
character in front of any continuation, has a nonzero leading byte unless
the character is U+0000, and consists of in-range bytes. -/
theorem utf8EncodeChar_spec (c : Char) (r : List Nat) :
    ∃ b bs, utf8EncodeChar c = b :: bs ∧
      utf8DecodeChar b (bs ++ r) = some (c, r) ∧
      (c.toNat ≠ 0 → b ≠ 0) ∧
      (∀ x ∈ b :: bs, x < 256) := by
  have hval : c.toNat < 55296 ∨ (57343 < c.toNat ∧ c.toNat < 1114112) := by
    rcases c.valid with h | h
    · exact Or.inl h
    · exact Or.inr h
  rcases Nat.lt_or_ge c.toNat 128 with h1 | h1
  · refine ⟨c.toNat, [], ?_, ?_, ?_, ?_⟩
    · simp only [utf8EncodeChar]
      rw [if_pos h1]
    · simp only [List.nil_append]
      unfold utf8DecodeChar
      rw [if_pos h1, Char.ofNat_toNat]
    · exact fun h0 => h0
    · intro x hx
      simp at hx
      omega
  · rcases Nat.lt_or_ge c.toNat 2048 with h2 | h2
    · refine ⟨192 + c.toNat / 64, [128 + c.toNat % 64], ?_, ?_, ?_, ?_⟩
      · simp only [utf8EncodeChar]
        rw [if_neg (by omega), if_pos h2]
      · simp only [List.cons_append, List.nil_append]
        unfold utf8DecodeChar
        rw [if_neg (by omega), if_neg (by omega), if_pos (by omega)]
        dsimp only
        rw [if_pos (by omega)]
        have hv : (192 + c.toNat / 64 - 192) * 64 + (128 + c.toNat % 64 - 128)
            = c.toNat := by omega
        rw [hv, if_pos (by omega), Char.ofNat_toNat]
      · intro _
        omega
      · intro x hx
        simp at hx
        rcases hx with hx | hx <;> omega
    · rcases Nat.lt_or_ge c.toNat 65536 with h3 | h3
      · refine ⟨224 + c.toNat / 4096,
          [128 + c.toNat / 64 % 64, 128 + c.toNat % 64], ?_, ?_, ?_, ?_⟩
        · simp only [utf8EncodeChar]
          rw [if_neg (by omega), if_neg (by omega), if_pos h3]
        · simp only [List.cons_append, List.nil_append]
          unfold utf8DecodeChar
          rw [if_neg (by omega), if_neg (by omega), if_neg (by omega),
            if_pos (by omega)]
          dsimp only
          rw [if_pos (by omega)]
          have hv : (224 + c.toNat / 4096 - 224) * 4096
              + (128 + c.toNat / 64 % 64 - 128) * 64
              + (128 + c.toNat % 64 - 128) = c.toNat := by omega
          rw [hv, if_pos (by omega), Char.ofNat_toNat]
        · intro _
          omega
        · intro x hx
          simp at hx
          rcases hx with hx | hx | hx <;> omega
      · have h4 : c.toNat < 1114112 := by omega
        refine ⟨240 + c.toNat / 262144,
          [128 + c.toNat / 4096 % 64, 128 + c.toNat / 64 % 64,
            128 + c.toNat % 64], ?_, ?_, ?_, ?_⟩
        · simp only [utf8EncodeChar]
          rw [if_neg (by omega), if_neg (by omega), if_neg (by omega)]
        · simp only [List.cons_append, List.nil_append]
          unfold utf8DecodeChar
          rw [if_neg (by omega), if_neg (by omega), if_neg (by omega),
            if_neg (by omega), if_pos (by omega)]
          dsimp only
          rw [if_pos (by omega)]
          have hv : (240 + c.toNat / 262144 - 240) * 262144
              + (128 + c.toNat / 4096 % 64 - 128) * 4096
              + (128 + c.toNat / 64 % 64 - 128) * 64
              + (128 + c.toNat % 64 - 128) = c.toNat := by omega
          rw [hv, if_pos (by omega), Char.ofNat_toNat]
        · intro _
          omega
        · intro x hx
          simp at hx
          rcases hx with hx | hx | hx | hx <;> omega

/-- Decoding inverts encoding, for any sufficient fuel. -/
theorem utf8DecodeAux_encode (cs : List Char) :
    ∀ fuel : Nat, (utf8Encode cs).length ≤ fuel →
      utf8DecodeAux fuel (utf8Encode cs) = some cs := by
  induction cs with
  | nil =>
    intro fuel h
    cases fuel <;> rfl
  | cons c cs ih =>
    intro fuel h
    obtain ⟨b, bs, henc, hdec, hnz, hlt⟩ := utf8EncodeChar_spec c (utf8Encode cs)
    have hbytes : utf8Encode (c :: cs) = b :: (bs ++ utf8Encode cs) := by
      show (c :: cs).flatMap utf8EncodeChar = _
      rw [List.flatMap_cons, henc]
      rfl
    rw [hbytes] at h ⊢
    cases fuel with
    | zero => simp at h
    | succ f =>
      have hf : (utf8Encode cs).length ≤ f := by
        simp at h
        omega
      rw [utf8DecodeAux, hdec]
      simp [ih f hf]

/-- UTF-8 round-trip on character lists. -/
theorem utf8Decode_utf8Encode (cs : List Char) :
    utf8Decode (utf8Encode cs) = some cs :=
  utf8DecodeAux_encode cs _ (le_refl _)

/-- Every UTF-8 output byte is in range. -/
theorem utf8Encode_lt (cs : List Char) : ∀ x ∈ utf8Encode cs, x < 256 := by
  intro x hx
  rw [show utf8Encode cs = cs.flatMap utf8EncodeChar from rfl] at hx
  obtain ⟨c, _, hc⟩ := List.mem_flatMap.mp hx
  obtain ⟨b, bs, henc, _, _, hlt⟩ := utf8EncodeChar_spec c []
  rw [henc] at hc
  exact hlt x hc

/-- The alphabet lookup inverts alphabet indexing. -/
theorem alph_indexOf_getD :
    ∀ d : Nat, d < 62 →
      BASE62_ALPHABET.data.indexOf? (BASE62_ALPHABET.data.getD d '0') = some d := by
  decide

/-- No alphabet character is whitespace. -/
theorem alph_not_space : ∀ c ∈ BASE62_ALPHABET.data, pyIsSpace c = false := by
  decide

/-- Alphabet indexing lands in the alphabet. -/
theorem alph_getD_mem :
    ∀ d : Nat, d < 62 → BASE62_ALPHABET.data.getD d '0' ∈ BASE62_ALPHABET.data := by
  decide

/-- Every digit emitted by `_int_to_base62` is an alphabet character. -/
theorem int_to_base62_digits_mem (n : Nat) :
    ∀ c ∈ int_to_base62_digits n, c ∈ BASE62_ALPHABET.data := by
  induction n using Nat.strong_induction_on with
  | _ n ih =>
    intro c hc
    rw [int_to_base62_digits] at hc
    by_cases hn : n = 0
    · simp [hn] at hc
    · rw [if_neg hn] at hc
      have hB : BASE62_BASE = 62 := rfl
      rcases List.mem_cons.mp hc with rfl | hc2
      · exact alph_getD_mem _ (by rw [hB]; omega)
      · exact ih (n / BASE62_BASE)
          (Nat.div_lt_self (Nat.pos_of_ne_zero hn) (by rw [hB]; omega)) c hc2

/-- Folding `_base62_to_int`'s step over the emitted digits, most
significant first, recovers the encoded value on top of any accumulator. -/
theorem base62_fold_digits (n : Nat) :
    ∀ a : Nat,
      (int_to_base62_digits n).reverse.foldlM
        (fun n2 ch =>
          match BASE62_ALPHABET.data.indexOf? ch with
          | none => none
          | some idx => some (n2 * BASE62_BASE + idx))
        a
      = some (a * BASE62_BASE ^ (int_to_base62_digits n).length + n) := by
  induction n using Nat.strong_induction_on with
  | _ n ih =>
    intro a
    rw [int_to_base62_digits]
    by_cases hn : n = 0
    · simp [hn]
    · rw [if_neg hn]
      have hB : BASE62_BASE = 62 := rfl
      rw [List.reverse_cons, List.foldlM_append,
        ih (n / BASE62_BASE)
          (Nat.div_lt_self (Nat.pos_of_ne_zero hn) (by rw [hB]; omega)) a]
      simp only [Option.bind_eq_bind, Option.some_bind, List.foldlM_cons,
        List.foldlM_nil, List.length_cons]
      rw [alph_indexOf_getD (n % BASE62_BASE) (by rw [hB]; omega)]
      have hdm : BASE62_BASE * (n / BASE62_BASE) + n % BASE62_BASE = n :=
        Nat.div_add_mod n BASE62_BASE
      have key : (a * BASE62_BASE ^ (int_to_base62_digits (n / BASE62_BASE)).length
            + n / BASE62_BASE) * BASE62_BASE + n % BASE62_BASE
          = a * BASE62_BASE
              ^ ((int_to_base62_digits (n / BASE62_BASE)).length + 1) + n := by
        calc (a * BASE62_BASE ^ (int_to_base62_digits (n / BASE62_BASE)).length
              + n / BASE62_BASE) * BASE62_BASE + n % BASE62_BASE
            = a * BASE62_BASE
                ^ ((int_to_base62_digits (n / BASE62_BASE)).length + 1)
              + (BASE62_BASE * (n / BASE62_BASE) + n % BASE62_BASE) := by
              rw [pow_succ]
              ring
          _ = _ := by rw [hdm]
      simp [key]

/-- Dropping while a predicate never holds is the identity. -/
theorem dropWhile_of_forall {l : List Char} {p : Char → Bool}
    (h : ∀ c ∈ l, p c = false) : l.dropWhile p = l := by
  cases l with
  | nil => rfl
  | cons x xs =>
    rw [List.dropWhile_cons, h x (by simp)]
    simp

/-- Stripping whitespace from an all-non-whitespace list is the identity. -/
theorem pyStrip_of_forall {l : List Char}
    (h : ∀ c ∈ l, pyIsSpace c = false) : pyStrip l = l := by
  unfold pyStrip
  rw [dropWhile_of_forall h,
    dropWhile_of_forall (fun c hc => h c (List.mem_reverse.mp hc)),
    List.reverse_reverse]

/-- The Base62 codec round-trip on the integer layer. -/
theorem base62_to_int_int_to_base62 (n : Nat) :
    base62_to_int (int_to_base62 n) = some n := by
  by_cases hn : n = 0
  · subst hn
    decide
  · have hd : int_to_base62_digits n ≠ [] := by
      rw [int_to_base62_digits, if_neg hn]
      simp
    have hmem : ∀ c ∈ (int_to_base62_digits n).reverse, pyIsSpace c = false :=
      fun c hc =>
        alph_not_space c (int_to_base62_digits_mem n c (List.mem_reverse.mp hc))
    unfold int_to_base62
    rw [if_neg hn]
    unfold base62_to_int
    rw [if_neg (by simpa using hd)]
    rw [show (String.mk (int_to_base62_digits n).reverse).data
        = (int_to_base62_digits n).reverse from rfl]
    rw [pyStrip_of_forall hmem, base62_fold_digits n 0]
    simp

/-- Claim C1 as frozen is false: `encode_channel_id` reads the UTF-8 bytes
as a big-endian integer, so a leading U+0000 byte vanishes — the one-NUL
string encodes to `"0"`, which decodes to the empty string, not to the
original input. -/
theorem claim_C1_counterexample :
    decode_channel_id (encode_channel_id "\x00") = some "" ∧
      ("\x00" : String) ≠ "" := by
  constructor
  · decide
  · decide

/-- Claim C1 (amended): for every UTF-8 string that does not begin with the
character U+0000 — equivalently, whose byte rendering has no leading zero
byte — decoding inverts encoding; and `encode_channel_id "" = "0"` and
`decode_channel_id "0" = ""` hold as stated. Strings with a leading NUL are
the unique exception, their leading zero bytes being absorbed into the
integer representation. -/
theorem claim_C1 :
    (∀ s : String, s.data.head? ≠ some (Char.ofNat 0) →
      decode_channel_id (encode_channel_id s) = some s) ∧
    encode_channel_id "" = "0" ∧
    decode_channel_id "0" = some "" := by
  refine ⟨?_, by decide, by decide⟩
  intro s hh
  cases hs : s.data with
  | nil =>
    have hse : s = "" := String.ext (by rw [hs])
    rw [hse]
    decide
  | cons c cs =>
    have hc0 : c.toNat ≠ 0 := by
      intro h0
      apply hh
      rw [hs]
      show some c = some (Char.ofNat 0)
      rw [← Char.ofNat_toNat c, h0]
    obtain ⟨b, bs, henc, hdec, hnz, hblt⟩ := utf8EncodeChar_spec c (utf8Encode cs)
    have hb0 : b ≠ 0 := hnz hc0
    have hbytes : utf8Encode s.data = b :: (bs ++ utf8Encode cs) := by
      rw [hs]
      show (c :: cs).flatMap utf8EncodeChar = _
      rw [List.flatMap_cons, henc]
      rfl
    have hall : ∀ x ∈ b :: (bs ++ utf8Encode cs), x < 256 := by
      rw [← hbytes]
      exact utf8Encode_lt s.data
    have henc2 : encode_channel_id s
        = int_to_base62 (intFromBytesBE (b :: (bs ++ utf8Encode cs))) := by
      simp [encode_channel_id, hbytes]
    have hnz2 : intFromBytesBE (b :: (bs ++ utf8Encode cs)) ≠ 0 := by
      have hge := intFromBytesBE_ge b (bs ++ utf8Encode cs) hb0
      have hp : 0 < 256 ^ (bs ++ utf8Encode cs).length :=
        Nat.pos_pow_of_pos _ (by norm_num)
      omega
    rw [henc2]
    unfold decode_channel_id
    rw [base62_to_int_int_to_base62]
    dsimp only
    rw [if_neg hnz2, byteLen_exact b _ hb0 hall,
      intToBytesBE_intFromBytesBE _ hall, ← hbytes,
      utf8Decode_utf8Encode]
    rfl

/-- Witness for C1 at a concrete NUL-free string. -/
theorem claim_C1_witness :
    decode_channel_id (encode_channel_id "hello") = some "hello" :=
  claim_C1.1 "hello" (by decide)

/-- A value below `16 ^ k` needs at most `k` hex digits. -/
theorem hexDigitsRev_length_le : ∀ k n : Nat, n < 16 ^ k → (hexDigitsRev n).length ≤ k := by
  intro k
  induction k with
  | zero =>
    intro n h
    have hn : n = 0 := by simpa using h
    rw [hn, hexDigitsRev]
    simp
  | succ k ih =>
    intro n h
    rw [hexDigitsRev]
    by_cases hn : n = 0
    · simp [hn]
    · rw [if_neg hn]
      have h2 : n / 16 < 16 ^ k := by
        have h3 : (16:Nat) ^ (k + 1) = 16 * 16 ^ k := by ring
        omega
      simpa using ih (n / 16) h2

/-- Every emitted hex digit is a lowercase hex character. -/
theorem hexDigitsRev_mem (n : Nat) :
    ∀ c ∈ hexDigitsRev n, c ∈ "0123456789abcdef".data := by
  induction n using Nat.strong_induction_on with
  | _ n ih =>
    intro c hc
    rw [hexDigitsRev] at hc
    by_cases hn : n = 0
    · simp [hn] at hc
    · rw [if_neg hn] at hc
      rcases List.mem_cons.mp hc with rfl | hc2
      · have hmem16 : ∀ d : Nat, d < 16 → hexDigitChar d ∈ "0123456789abcdef".data := by
          decide
        exact hmem16 (n % 16) (by omega)
      · exact ih (n / 16) (Nat.div_lt_self (Nat.pos_of_ne_zero hn) (by omega)) c hc2

/-- Parsing inverts hex digit emission. -/
theorem hexVal_hexDigitChar : ∀ d : Nat, d < 16 → hexVal (hexDigitChar d) = some d := by
  decide

/-- Folding `parseHexDigits`'s step over the emitted digits, most
significant first, recovers the value on top of any accumulator. -/
theorem hex_fold_digits (n : Nat) :
    ∀ a : Nat,
      (hexDigitsRev n).reverse.foldlM
        (fun n2 c => (hexVal c).map (fun d => n2 * 16 + d)) a
      = some (a * 16 ^ (hexDigitsRev n).length + n) := by
  induction n using Nat.strong_induction_on with
  | _ n ih =>
    intro a
    rw [hexDigitsRev]
    by_cases hn : n = 0
    · simp [hn]
    · rw [if_neg hn]
      rw [List.reverse_cons, List.foldlM_append,
        ih (n / 16) (Nat.div_lt_self (Nat.pos_of_ne_zero hn) (by omega)) a]
      simp only [Option.bind_eq_bind, Option.some_bind, List.foldlM_cons,
        List.foldlM_nil, List.length_cons]
      rw [hexVal_hexDigitChar (n % 16) (by omega)]
      have hdm : 16 * (n / 16) + n % 16 = n := Nat.div_add_mod n 16
      have key : (a * 16 ^ (hexDigitsRev (n / 16)).length + n / 16) * 16 + n % 16
          = a * 16 ^ ((hexDigitsRev (n / 16)).length + 1) + n := by
        calc (a * 16 ^ (hexDigitsRev (n / 16)).length + n / 16) * 16 + n % 16
            = a * 16 ^ ((hexDigitsRev (n / 16)).length + 1)
              + (16 * (n / 16) + n % 16) := by
              rw [pow_succ]
              ring
          _ = _ := by rw [hdm]
      simp [key]

/-- Leading padding zeros do not change a zero accumulator. -/
theorem hex_fold_zeros : ∀ k : Nat,
    (List.replicate k '0').foldlM
      (fun n2 c => (hexVal c).map (fun d => n2 * 16 + d)) 0
    = some (0 : Nat) := by
  intro k
  induction k with
  | zero => rfl
  | succ k ih =>
    rw [List.replicate_succ, List.foldlM_cons]
    have h0 : hexVal '0' = some 0 := by decide
    rw [h0]
    simpa using ih

/-- Parsing the padded 32-digit hex rendering recovers the value. -/
theorem parseHexDigits_pyHex32 (n : Nat) (h : n < 2 ^ 128) :
    parseHexDigits (pyHex32 n) = some n := by
  unfold parseHexDigits pyHex32
  by_cases hn : n = 0
  · subst hn
    decide
  · rw [if_neg hn]
    rw [List.foldlM_append, hex_fold_zeros]
    simp only [Option.bind_eq_bind, Option.some_bind]
    rw [hex_fold_digits n 0]
    simp

/-- The padded hex rendering of a 128-bit value has exactly 32 digits. -/
theorem pyHex32_length (n : Nat) (h : n < 2 ^ 128) : (pyHex32 n).length = 32 := by
  unfold pyHex32
  by_cases hn : n = 0
  · simp [hn]
  · rw [if_neg hn]
    have hle : (hexDigitsRev n).length ≤ 32 := by
      apply hexDigitsRev_length_le 32 n
      calc n < 2 ^ 128 := h
        _ = 16 ^ 32 := by norm_num
    simp
    omega

/-- Every character of the padded hex rendering is a hex digit. -/
theorem pyHex32_mem (n : Nat) :
    ∀ c ∈ pyHex32 n, c ∈ "0123456789abcdef".data := by
  intro c hc
  unfold pyHex32 at hc
  rcases List.mem_append.mp hc with hc1 | hc2
  · have : c = '0' := List.eq_of_mem_replicate hc1
    rw [this]
    decide
  · by_cases hn : n = 0
    · rw [if_pos hn] at hc2
      simp at hc2
      rw [hc2]
      decide
    · rw [if_neg hn] at hc2
      exact hexDigitsRev_mem n c (List.mem_reverse.mp hc2)

/-- Removing a pattern whose first character never occurs is the identity. -/
theorem removeOccurrences_no_head (p : Char) (ps : List Char) :
    ∀ s : List Char, (∀ c ∈ s, c ≠ p) → removeOccurrences (p :: ps) s = s := by
  intro s
  induction s with
  | nil =>
    intro _
    rw [removeOccurrences]
  | cons x rest ih =>
    intro h
    rw [removeOccurrences]
    rw [dif_neg]
    · rw [ih fun c hc => h c (List.mem_cons_of_mem x hc)]
    · intro hcond
      have h1 := hcond.1
      have : (p == x) = true ∧ ps.isPrefixOf rest = true := by
        simpa [List.isPrefixOf] using h1
      exact absurd (eq_of_beq this.1).symm (h x (by simp))

/-- Removing a single-character pattern is filtering that character out. -/
theorem removeOccurrences_singleton (c : Char) :
    ∀ s : List Char, removeOccurrences [c] s = s.filter (fun x => !(x == c)) := by
  intro s
  induction s with
  | nil => rw [removeOccurrences]; rfl
  | cons x rest ih =>
    rw [removeOccurrences]
    by_cases hcx : c = x
    · rw [dif_pos ⟨by simp [List.isPrefixOf, hcx], by simp⟩]
      have hdrop : (x :: rest).drop ([c].length) = rest := by simp
      rw [hdrop, ih]
      have : (!(x == c)) = false := by simp [hcx.symm]
      rw [List.filter_cons, this]
      simp
    · rw [dif_neg]
      · rw [ih]
        have : (!(x == c)) = true := by
          simp
          exact fun he => hcx he.symm
        rw [List.filter_cons, this]
        simp
      · intro hcond
        have h1 := hcond.1
        have : (c == x) = true ∧ List.isPrefixOf [] rest = true := by
          simpa [List.isPrefixOf] using h1
        exact absurd (eq_of_beq this.1) hcx

/-- Stripping braces from a brace-free list is the identity. -/
theorem stripBraces_of_forall {l : List Char}
    (h : ∀ c ∈ l, ¬(c = '\x7b' ∨ c = '\x7d')) : stripBraces l = l := by
  unfold stripBraces
  have hb : ∀ c ∈ l, (fun c => c = '\x7b' || c = '\x7d' : Char → Bool) c = false := by
    intro c hc
    have := h c hc
    simp only [Bool.or_eq_false_iff, decide_eq_false_iff_not]
    constructor
    · exact fun he => this (Or.inl he)
    · exact fun he => this (Or.inr he)
  dsimp only
  rw [dropWhile_of_forall hb,
    dropWhile_of_forall (fun c hc => hb c (List.mem_reverse.mp hc)),
    List.reverse_reverse]

/-- Reassembling the 8-4-4-4-12 slices recovers the whole list. -/
theorem take_assemble (l : List Char) :
    l.take 8 ++ ((l.drop 8).take 4 ++ ((l.drop 12).take 4
      ++ ((l.drop 16).take 4 ++ l.drop 20))) = l := by
  have h16 : (l.drop 16).take 4 ++ l.drop 20 = l.drop 16 := by
    rw [show l.drop 20 = (l.drop 16).drop 4 by rw [List.drop_drop]]
    exact List.take_append_drop 4 (l.drop 16)
  have h12 : (l.drop 12).take 4 ++ l.drop 16 = l.drop 12 := by
    rw [show l.drop 16 = (l.drop 12).drop 4 by rw [List.drop_drop]]
    exact List.take_append_drop 4 (l.drop 12)
  have h8 : (l.drop 8).take 4 ++ l.drop 12 = l.drop 8 := by
    rw [show l.drop 12 = (l.drop 8).drop 4 by rw [List.drop_drop]]
    exact List.take_append_drop 4 (l.drop 8)
  rw [h16, h12, h8]
  exact List.take_append_drop 8 l

/-- The canonical UUID rendering parses back to its value. -/
theorem pyUUID_uuidToString (n : Nat) (h : n < 2 ^ 128) :
    pyUUID (uuidToString n) = some n := by
  have hhexmem : ∀ c ∈ pyHex32 n, c ∈ "0123456789abcdef".data := pyHex32_mem n
  have hdata : (uuidToString n).data
      = (pyHex32 n).take 8 ++ ['-'] ++ ((pyHex32 n).drop 8).take 4 ++ ['-']
        ++ ((pyHex32 n).drop 12).take 4 ++ ['-'] ++ ((pyHex32 n).drop 16).take 4
        ++ ['-'] ++ (pyHex32 n).drop 20 := rfl
  have hmemchar : ∀ c ∈ (uuidToString n).data,
      c ∈ "0123456789abcdef".data ∨ c = '-' := by
    intro c hc
    rw [hdata] at hc
    simp only [List.append_assoc, List.mem_append, List.mem_singleton] at hc
    rcases hc with hc | hc | hc | hc | hc | hc | hc | hc | hc
    · exact Or.inl (hhexmem c (List.take_subset 8 _ hc))
    · exact Or.inr hc
    · exact Or.inl (hhexmem c (List.drop_subset 8 _ (List.take_subset 4 _ hc)))
    · exact Or.inr hc
    · exact Or.inl (hhexmem c (List.drop_subset 12 _ (List.take_subset 4 _ hc)))
    · exact Or.inr hc
    · exact Or.inl (hhexmem c (List.drop_subset 16 _ (List.take_subset 4 _ hc)))
    · exact Or.inr hc
    · exact Or.inl (hhexmem c (List.drop_subset 20 _ hc))
  have hnotu : ∀ c ∈ (uuidToString n).data, c ≠ 'u' := by
    intro c hc
    rcases hmemchar c hc with hm | hm
    · revert hm
      have : ∀ x ∈ "0123456789abcdef".data, x ≠ 'u' := by decide
      exact this c
    · rw [hm]
      decide
  have hnobrace : ∀ c ∈ (uuidToString n).data, ¬(c = '\x7b' ∨ c = '\x7d') := by
    intro c hc
    rcases hmemchar c hc with hm | hm
    · revert hm
      have : ∀ x ∈ "0123456789abcdef".data, ¬(x = '\x7b' ∨ x = '\x7d') := by decide
      exact this c
    · rw [hm]
      decide
  unfold pyUUID
  dsimp only
  rw [removeOccurrences_no_head 'u' ['r', 'n', ':'] _ hnotu,
    removeOccurrences_no_head 'u' ['u', 'i', 'd', ':'] _ hnotu,
    stripBraces_of_forall hnobrace,
    removeOccurrences_singleton '-' _]
  have hfilterhex : ∀ (part : List Char), (∀ c ∈ part, c ∈ "0123456789abcdef".data) →
      part.filter (fun x => !(x == '-')) = part := by
    intro part hp
    apply List.filter_eq_self.mpr
    intro a ha
    have : ∀ x ∈ "0123456789abcdef".data, (!(x == '-')) = true := by decide
    exact this a (hp a ha)
  have hfiltered : ((uuidToString n).data).filter (fun x => !(x == '-'))
      = pyHex32 n := by
    rw [hdata]
    simp only [List.append_assoc, List.filter_append]
    rw [hfilterhex _ (fun c hc => hhexmem c (List.take_subset 8 _ hc)),
      hfilterhex _ (fun c hc => hhexmem c (List.drop_subset 8 _ (List.take_subset 4 _ hc))),
      hfilterhex _ (fun c hc => hhexmem c (List.drop_subset 12 _ (List.take_subset 4 _ hc))),
      hfilterhex _ (fun c hc => hhexmem c (List.drop_subset 16 _ (List.take_subset 4 _ hc))),
      hfilterhex _ (fun c hc => hhexmem c (List.drop_subset 20 _ hc))]
    rw [show (['-'].filter (fun x => !(x == '-'))) = [] from rfl]
    simp only [List.nil_append]
    exact take_assemble (pyHex32 n)
  rw [hfiltered, if_pos (pyHex32_length n h)]
  exact parseHexDigits_pyHex32 n h

/-- Claim C8: for every 128-bit UUID value, parsing the built visitor
channel id recovers the UUID; and parsing fails with a format error for
every input lacking the `-vtr` suffix and for every input whose remainder
after stripping the suffix is not a valid UUID string. -/
theorem claim_C8 :
    (∀ u : Nat, u < 2 ^ 128 →
      parse_visitor_channel_id (build_visitor_channel_id u) = some u) ∧
    (∀ s : String, VISITOR_CHANNEL_SUFFIX.data.isSuffixOf s.data = false →
      parse_visitor_channel_id s = none) ∧
    (∀ s : String,
      pyUUID (String.mk
        (s.data.take (s.data.length - VISITOR_CHANNEL_SUFFIX.data.length)))
        = none →
      parse_visitor_channel_id s = none) := by
  refine ⟨?_, ?_, ?_⟩
  · intro u hu
    unfold build_visitor_channel_id parse_visitor_channel_id
    rw [String.data_append]
    rw [if_pos (List.isSuffixOf_iff_suffix.mpr (List.suffix_append _ _))]
    have htake : ((uuidToString u).data ++ VISITOR_CHANNEL_SUFFIX.data).take
        (((uuidToString u).data ++ VISITOR_CHANNEL_SUFFIX.data).length
          - VISITOR_CHANNEL_SUFFIX.data.length) = (uuidToString u).data := by
      rw [List.length_append]
      rw [show (uuidToString u).data.length + VISITOR_CHANNEL_SUFFIX.data.length
          - VISITOR_CHANNEL_SUFFIX.data.length
          = (uuidToString u).data.length by omega]
      exact List.take_left _ _
    rw [htake]
    exact pyUUID_uuidToString u hu
  · intro s hsfx
    unfold parse_visitor_channel_id
    rw [if_neg (by simp [hsfx])]
  · intro s hpu
    unfold parse_visitor_channel_id
    by_cases hsfx : VISITOR_CHANNEL_SUFFIX.data.isSuffixOf s.data = true
    · rw [if_pos hsfx]
      exact hpu
    · rw [if_neg hsfx]

/-- Witness for C8: the zero UUID round-trips, a suffix-free input fails,
and a suffixed input with an empty (hence invalid) UUID body fails. -/
theorem claim_C8_witness :
    parse_visitor_channel_id (build_visitor_channel_id 0) = some 0 ∧
    parse_visitor_channel_id "nope" = none ∧
    parse_visitor_channel_id "-vtr" = none :=
  ⟨claim_C8.1 0 (by norm_num), claim_C8.2.1 "nope" (by decide),
    claim_C8.2.2 "-vtr"
      (show pyUUID (String.mk []) = none by
        simp [pyUUID, removeOccurrences, stripBraces])⟩

end TGO
